import Mathlib

/-!
Verification development for an IMAP REST proxy (`app/services.py`,
`app/main.py`, `app/models.py`).  The Python functions are shallowly
embedded as pure Lean functions; the behaviour of the Python standard
library (charset decoding, `email.header.decode_header`,
`email.utils.parsedate_to_datetime`, `mimetypes.guess_extension`,
`re.findall`) is abstracted into an oracle environment `Env`, and the
IMAP server is abstracted into explicit search results and a message
lookup function.  Exceptions are modelled with `Except`.
-/

namespace ImapApi

/-- Substring test over character lists: does `hay` start with `needle`? -/
def charsStartWith : List Char → List Char → Bool
  | [], _ => true
  | _ :: _, [] => false
  | a :: as, b :: bs => a = b && charsStartWith as bs

/-- Substring containment over character lists (Python `needle in hay`). -/
def charsContain (needle : List Char) : List Char → Bool
  | [] => needle.isEmpty
  | b :: bs => charsStartWith needle (b :: bs) || charsContain needle bs

/-- Python `needle in hay` on strings. -/
def strContains (hay needle : String) : Bool :=
  charsContain needle.toList hay.toList

/-- Python `s.startswith(p)`. -/
def strStartsWith (s p : String) : Bool :=
  charsStartWith p.toList s.toList

/-- Python `s.lower()` (character-wise, structural). -/
def toLowerStr (s : String) : String :=
  String.mk (s.toList.map Char.toLower)

/-- Python truthiness of an optional string: `None` and `""` are falsy. -/
def optStrTruthy : Option String → Bool
  | none => false
  | some s => if s = "" then false else true

/-- One element of the list returned by `email.header.decode_header`:
either raw bytes with an optional declared charset, or an already
decoded string. -/
inductive HeaderSeg where
  | bytesSeg (data : List Nat) (charset : Option String)
  | strSeg (s : String)
deriving DecidableEq

/-- Oracle environment abstracting the Python standard library calls used
by `app/services.py`.  Byte strings are `List Nat`. -/
structure Env where
  /-- `email.header.decode_header`; may raise. -/
  decode_header : String → Except String (List HeaderSeg)
  /-- `bytes.decode(charset)`; may raise for an unknown charset or bad bytes. -/
  decodeCharset : List Nat → String → Except String String
  /-- `bytes.decode('utf-8', errors='replace')`; total. -/
  decodeUtf8Replace : List Nat → String
  /-- `bytes.decode('ascii', errors='replace')`; total. -/
  decodeAsciiReplace : List Nat → String
  /-- `mimetypes.guess_extension`; `none` models Python `None`. -/
  guess_extension : String → Option String
  /-- `re.findall(email_pattern, s)` from `get_email_addresses`. -/
  findall_email : String → List String
  /-- `email.utils.parsedate_to_datetime`; raises on an unparseable date. -/
  parsedate : String → Except Unit Nat
  /-- `datetime.now()`, as an abstract timestamp. -/
  now : Nat

/-- `ImapService.decode_header_value` (`app/services.py` lines 28-54).
`None`/empty input returns `""`; each bytes segment is decoded with its
declared charset, falling back to ASCII-with-replacement if that raises,
or with UTF-8-with-replacement when no charset is declared; segments are
joined with a single space; if `decode_header` itself raises, the raw
value is returned unchanged (`str(value)` of a `str` is itself). -/
def decode_header_value (env : Env) (value : Option String) : String :=
  match value with
  | none => ""
  | some v =>
    if v = "" then ""
    else
      match env.decode_header v with
      | .error _ => v
      | .ok segs =>
        let parts := segs.map (fun seg =>
          match seg with
          | .bytesSeg data charset =>
            match charset with
            | some cs =>
              (match env.decodeCharset data cs with
               | .ok s => s
               | .error _ => env.decodeAsciiReplace data)
            | none => env.decodeUtf8Replace data
          | .strSeg s => s)
        String.intercalate " " parts

/-- `ImapService.get_email_addresses` (lines 81-91): falsy input gives
`[]`, otherwise the regex scan of the decoded header value. -/
def get_email_addresses (env : Env) (header_value : Option String) : List String :=
  if optStrTruthy header_value = false then []
  else env.findall_email (decode_header_value env header_value)

/-- `app/models.py` `EmailAttachment`. -/
structure EmailAttachment where
  filename : String
  content_type : String
  size : Nat
  content_id : Option String
deriving DecidableEq

/-- `app/models.py` `EmailResponse`.  `date` is an abstract timestamp;
`headers` is the Python dict as an ordered association list. -/
structure EmailResponse where
  message_id : String
  subject : String
  sender : String
  recipients : List String
  date : Nat
  mailbox : String
  flags : List String
  text_content : Option String
  html_content : Option String
  size : Nat
  attachments : List EmailAttachment
  headers : List (String × String)
deriving DecidableEq

/-- View of `Except` as a sum, to transfer decidable equality. -/
def exceptToSum : Except ε α → ε ⊕ α
  | .error e => .inl e
  | .ok a => .inr a

instance [DecidableEq ε] [DecidableEq α] : DecidableEq (Except ε α) := fun a b =>
  decidable_of_iff (exceptToSum a = exceptToSum b)
    (by cases a <;> cases b <;> simp [exceptToSum])

/-- One leaf of the MIME tree, with the fields the Python code reads.
`payloadDecode` models `part.get_payload(decode=True)` (bytes, `None`,
or an exception); `payloadStrEncode` models
`part.get_payload().encode('utf-8')` (bytes or an exception). -/
structure LeafData where
  /-- `part.get_content_type()` (already lowercased by the email library). -/
  content_type : String
  /-- `part.get_content_maintype()`. -/
  maintype : String
  /-- `part.get('Content-Disposition')`; `none` when the header is absent. -/
  disposition : Option String
  /-- `part.get_filename()`. -/
  filename : Option String
  /-- `part.get('Content-ID')`. -/
  content_id : Option String
  payloadDecode : Except Unit (Option (List Nat))
  payloadStrEncode : Except Unit (List Nat)
deriving DecidableEq

/-- A parsed MIME message: leaf parts carry content, `multipart/*`
containers carry an ordered list of children. -/
inductive MimePart where
  | leaf (d : LeafData)
  | multi (content_type : String) (children : List MimePart)

mutual

/-- The leaf parts visited by `msg.walk()` in depth-first, left-to-right
order, with `multipart` containers skipped (`if part.is_multipart():
continue`). -/
def walkLeaves : MimePart → List LeafData
  | .leaf d => [d]
  | .multi _ children => walkLeavesList children

/-- Helper for `walkLeaves` over child lists. -/
def walkLeavesList : List MimePart → List LeafData
  | [] => []
  | c :: cs => walkLeaves c ++ walkLeavesList cs

end

/-- `str(part.get('Content-Disposition', '')).lower()` (line 387). -/
def content_disp_of (d : LeafData) : String :=
  toLowerStr (d.disposition.getD "")

/-- The attachment test of `get_content_parts.process_part`
(lines 401-411): disposition containing `attachment` or `inline`, else a
truthy filename, else a main type outside `text`/`multipart`. -/
def pp_is_attachment (d : LeafData) : Bool :=
  if content_disp_of d ≠ "" ∧
      (strContains (content_disp_of d) "attachment" = true ∨
       strContains (content_disp_of d) "inline" = true) then true
  else if optStrTruthy d.filename = true then true
  else if d.maintype ≠ "text" ∧ d.maintype ≠ "multipart" then true
  else false

/-- Attachment filename synthesis (lines 415-417 and 176-178):
`attachment` plus the guessed extension when the declared filename is
falsy. -/
def synth_filename (env : Env) (d : LeafData) : String :=
  if optStrTruthy d.filename = true then d.filename.getD ""
  else "attachment" ++ ((env.guess_extension d.content_type).getD "")

/-- Payload recovery for attachment parts (lines 419-421 and 183-185):
`get_payload(decode=True)`, falling back to
`get_payload().encode('utf-8')` when that returns `None`. -/
def ppExtractPayload (d : LeafData) : Except Unit (List Nat) :=
  match d.payloadDecode with
  | .error e => .error e
  | .ok (some b) => .ok b
  | .ok none => d.payloadStrEncode

/-- The `nonlocal` state threaded through `process_part`. -/
structure ContentState where
  text_content : Option String
  html_content : Option String
  attachments : List EmailAttachment
deriving DecidableEq

/-- `process_part` on a leaf (lines 386-449).  Attachment parts append a
record, with any failure during payload recovery caught and the part
skipped; otherwise `text/plain`/`text/html` parts populate a body slot
only when it is still falsy and the decoded payload is truthy, failures
again being caught per part. -/
def pp_leaf (env : Env) (d : LeafData) (st : ContentState) : ContentState :=
  if pp_is_attachment d = true then
    match ppExtractPayload d with
    | .ok b =>
      { st with attachments := st.attachments ++
          [{ filename := synth_filename env d, content_type := d.content_type,
             size := b.length, content_id := d.content_id }] }
    | .error _ => st
  else
    if d.content_type = "text/plain" ∧ optStrTruthy st.text_content = false then
      match d.payloadDecode with
      | .ok (some b) =>
        if b ≠ [] then { st with text_content := some (env.decodeUtf8Replace b) } else st
      | .ok none => st
      | .error _ => st
    else if d.content_type = "text/html" ∧ optStrTruthy st.html_content = false then
      match d.payloadDecode with
      | .ok (some b) =>
        if b ≠ [] then { st with html_content := some (env.decodeUtf8Replace b) } else st
      | .ok none => st
      | .error _ => st
    else st

mutual

/-- `get_content_parts.process_part` (lines 377-449): containers recurse
into their children in order, leaves go through `pp_leaf`. -/
def process_part (env : Env) : MimePart → ContentState → ContentState
  | .leaf d, st => pp_leaf env d st
  | .multi _ children, st => pp_children env children st

/-- The `for subpart in part.get_payload(): process_part(subpart)` loop. -/
def pp_children (env : Env) : List MimePart → ContentState → ContentState
  | [], st => st
  | c :: cs, st => pp_children env cs (process_part env c st)

end

/-- `ImapService.get_content_parts` (lines 348-472): process the root's
children when it is multipart, the root itself otherwise, starting from
empty state. -/
def get_content_parts (env : Env) (msg : MimePart) :
    Option String × Option String × List EmailAttachment :=
  let st :=
    match msg with
    | .multi _ children => pp_children env children ⟨none, none, []⟩
    | .leaf d => pp_leaf env d ⟨none, none, []⟩
  (st.text_content, st.html_content, st.attachments)

/-- The attachment test of the inline walk in `get_emails`
(lines 172-174): truthy filename, or raw disposition starting with
`attachment`, or content type starting with `application/`, `image/`,
`video/` or `audio/`. -/
def ge_is_attachment (d : LeafData) : Bool :=
  optStrTruthy d.filename ||
    strStartsWith (d.disposition.getD "") "attachment" ||
    strStartsWith d.content_type "application/" ||
    strStartsWith d.content_type "image/" ||
    strStartsWith d.content_type "video/" ||
    strStartsWith d.content_type "audio/"

/-- One leaf of the inline walk in `get_emails` (lines 165-196).  There
is no per-part exception handler: a payload failure propagates (to the
per-message handler at line 222).  A `text/plain` part whose
`get_payload(decode=True)` returns `None` raises (`None.decode`), and
body slots are overwritten unconditionally. -/
def ge_process_leaf (env : Env) (st : ContentState) (d : LeafData) :
    Except Unit ContentState :=
  if ge_is_attachment d = true then
    match ppExtractPayload d with
    | .ok b =>
      .ok { st with attachments := st.attachments ++
          [{ filename := synth_filename env d, content_type := d.content_type,
             size := b.length, content_id := d.content_id }] }
    | .error e => .error e
  else if d.content_type = "text/plain" then
    match d.payloadDecode with
    | .ok (some b) => .ok { st with text_content := some (env.decodeUtf8Replace b) }
    | .ok none => .error ()
    | .error e => .error e
  else if d.content_type = "text/html" then
    match d.payloadDecode with
    | .ok (some b) => .ok { st with html_content := some (env.decodeUtf8Replace b) }
    | .ok none => .error ()
    | .error e => .error e
  else .ok st

/-- The `for part in msg.walk()` loop of `get_emails` over the leaf
parts, stopping at the first uncaught failure. -/
def ge_walk_parts (env : Env) : List LeafData → ContentState → Except Unit ContentState
  | [], st => .ok st
  | d :: ds, st =>
    match ge_process_leaf env st d with
    | .ok st' => ge_walk_parts env ds st'
    | .error e => .error e

/-- One message as obtained from the server fetch: its raw headers in
order (`msg.items()`, duplicates preserved), its MIME tree, the raw byte
length `len(email_body)`, the `len(str(msg).encode('utf-8'))` length
used by `parse_email_message`, and the flags reported in the server
fetch response (which `get_emails` only logs). -/
structure ServerMessage where
  headers : List (String × String)
  raw : MimePart
  rawSize : Nat
  strEncodedSize : Nat
  flags : List String

/-- `msg['name']`: first header whose name matches case-insensitively. -/
def msgGet (hs : List (String × String)) (name : String) : Option String :=
  (hs.find? (fun kv => toLowerStr kv.1 == toLowerStr name)).map (fun kv => kv.2)

/-- Python dict assignment `d[k] = v` on an association list whose keys
are distinct (the only states reachable from the empty dict): replace
the existing binding in place, or append a fresh one. -/
def dictInsert : List (String × String) → String → String → List (String × String)
  | [], k, v => [(k, v)]
  | kv :: rest, k, v =>
    if kv.1 = k then (k, v) :: rest else kv :: dictInsert rest k v

/-- Dict lookup `d[k]` / `d.get(k)`, on the association-list model. -/
def dictGet : List (String × String) → String → Option String
  | [], _ => none
  | kv :: rest, k => if kv.1 = k then some kv.2 else dictGet rest k

/-- The dict comprehension
`{k: self.decode_header_value(v) for k, v in msg.items()}`
(lines 211 and 261): repeated assignment over the items in order. -/
def build_headers (env : Env) (items : List (String × String)) :
    List (String × String) :=
  items.foldl (fun d kv => dictInsert d kv.1 (decode_header_value env (some kv.2))) []

/-- The `EmailResponse(...)` constructor call of `get_emails`
(lines 199-212): note `flags=[]` is hard-coded there. -/
def ge_build_response (env : Env) (mailbox : String) (m : ServerMessage)
    (st : ContentState) (date : Nat) : EmailResponse :=
  { message_id := (msgGet m.headers "message-id").getD ""
    subject := decode_header_value env (msgGet m.headers "subject")
    sender := decode_header_value env (msgGet m.headers "from")
    recipients := get_email_addresses env (msgGet m.headers "to")
    date := date
    mailbox := mailbox
    flags := []
    text_content := st.text_content
    html_content := st.html_content
    size := m.rawSize
    attachments := st.attachments
    headers := build_headers env m.headers }

/-- Per-message body of the `for num in message_nums` loop of
`get_emails` (lines 130-220): walk the parts (uncaught failures skip the
whole message via the handler at line 222), evaluate the `date`
expression (line 204: parse only when the header is truthy, else `now`;
a parse failure propagates to the same handler), build the
`EmailResponse` via `ge_build_response`, then apply the post-hoc subject
filter (line 214).  `.ok none` means the message was discarded by the
filter. -/
def ge_process_message (env : Env) (mailbox : String) (subject : Option String)
    (m : ServerMessage) : Except Unit (Option EmailResponse) :=
  match ge_walk_parts env (walkLeaves m.raw) ⟨none, none, []⟩ with
  | .error e => .error e
  | .ok st =>
    match (match msgGet m.headers "date" with
           | some ds => if ds = "" then Except.ok env.now else env.parsedate ds
           | none => Except.ok env.now) with
    | .error e => .error e
    | .ok date =>
      match subject with
      | some s =>
        if s ≠ "" ∧ strContains (toLowerStr (ge_build_response env mailbox m st date).subject)
            (toLowerStr s) = false then .ok none
        else .ok (some (ge_build_response env mailbox m st date))
      | none => .ok (some (ge_build_response env mailbox m st date))

/-- The fetch loop of `get_emails` (lines 130-224): failed or filtered
messages are skipped (`continue`), accepted ones appended, and the loop
breaks once `len(emails) >= limit`. -/
def ge_fetch_loop (env : Env) (mailbox : String) (subject : Option String)
    (limit : Nat) : List ServerMessage → List EmailResponse → List EmailResponse
  | [], acc => acc
  | m :: rest, acc =>
    match ge_process_message env mailbox subject m with
    | .error _ => ge_fetch_loop env mailbox subject limit rest acc
    | .ok none => ge_fetch_loop env mailbox subject limit rest acc
    | .ok (some r) =>
      if limit ≤ (acc ++ [r]).length then acc ++ [r]
      else ge_fetch_loop env mailbox subject limit rest (acc ++ [r])

/-- `ImapService.get_emails` after a successful search (lines 124-226):
the server's id sequence is reversed (`message_nums.reverse()`), capped
(`message_nums[:limit]`), and only then are messages fetched and
processed. -/
def get_emails (env : Env) (fetchMsg : Nat → ServerMessage) (searchIds : List Nat)
    (subject : Option String) (mailbox : String) (limit : Nat) : List EmailResponse :=
  ge_fetch_loop env mailbox subject limit ((searchIds.reverse.take limit).map fetchMsg) []

/-- `ImapService.parse_email_message` (lines 231-277), happy path: the
date parse failure (including an absent header, for which
`parsedate_to_datetime(None)` raises) is caught and replaced by `now`;
content comes from `get_content_parts`. -/
def parse_email_message (env : Env) (m : ServerMessage) (mailbox : String)
    (flags : List String) : EmailResponse :=
  let date : Nat :=
    match msgGet m.headers "date" with
    | none => env.now
    | some ds => match env.parsedate ds with | .ok d => d | .error _ => env.now
  let parts := get_content_parts env m.raw
  { message_id := (msgGet m.headers "message-id").getD ""
    subject := decode_header_value env (msgGet m.headers "subject")
    sender := decode_header_value env (msgGet m.headers "from")
    recipients := get_email_addresses env (msgGet m.headers "to")
    date := date
    mailbox := mailbox
    flags := flags
    text_content := parts.1
    html_content := parts.2.1
    size := m.strEncodedSize
    attachments := parts.2.2
    headers := build_headers env m.headers }

/-- The `for part in msg.walk()` loop of `get_attachment`
(lines 305-321): each part is processed inside its own
`try`/`except ... continue`; a part with a truthy filename whose decoded
filename equals the request returns its payload, decoded filename and
content type, and a payload failure there skips just that part. -/
def ga_walk (env : Env) (fname : String) : List LeafData →
    Option (Option (List Nat) × String × String)
  | [] => none
  | d :: rest =>
    if optStrTruthy d.filename = true then
      if decode_header_value env d.filename = fname then
        match d.payloadDecode with
        | .ok p => some (p, decode_header_value env d.filename, d.content_type)
        | .error _ => ga_walk env fname rest
      else ga_walk env fname rest
    else ga_walk env fname rest

/-- `ImapService.get_attachment` after a successful select
(lines 293-323): an empty message-id search returns `None`; otherwise
the first hit is fetched and its leaves are walked. -/
def get_attachment (env : Env) (searchIds : List Nat)
    (fetchMsg : Nat → ServerMessage) (fname : String) :
    Option (Option (List Nat) × String × String) :=
  match searchIds with
  | [] => none
  | first :: _ => ga_walk env fname (walkLeaves (fetchMsg first).raw)

/-- IMAP side effects performed by one operation, for session-lifecycle
reasoning. -/
inductive ImapEvent where
  | selectEv
  | searchEv
  | fetchEv (n : Nat)
  | logoutEv
deriving DecidableEq

/-- One opened connection, as the operations see it: outcomes of
`select` (including the explicit `status != 'OK'` raise in
`get_attachment`), `search`, the message behind each id, and `logout`. -/
structure Conn where
  selectRes : Except String Unit
  searchRes : Except String (List Nat)
  fetchMsg : Nat → ServerMessage
  logoutRes : Except String Unit

/-- Python `try: body finally: connection.logout()` (lines 108-229 and
287-326): logout runs exactly once after the body; when logout raises,
its exception is what the caller sees, replacing the body's outcome. -/
def tryFinallyLogout (body : Except String α × List ImapEvent)
    (logoutRes : Except String Unit) : Except String α × List ImapEvent :=
  ((match logoutRes with
    | .error e => .error e
    | .ok _ => body.1),
   body.2 ++ [ImapEvent.logoutEv])

/-- The `try` body of `get_emails`: select, search, then the capped
reversed fetch loop; select/search failures propagate. -/
def get_emails_body (env : Env) (conn : Conn) (subject : Option String)
    (mailbox : String) (limit : Nat) :
    Except String (List EmailResponse) × List ImapEvent :=
  match conn.selectRes with
  | .error e => (.error e, [.selectEv])
  | .ok _ =>
    match conn.searchRes with
    | .error e => (.error e, [.selectEv, .searchEv])
    | .ok ids =>
      (.ok (get_emails env conn.fetchMsg ids subject mailbox limit),
       [.selectEv, .searchEv] ++ (ids.reverse.take limit).map ImapEvent.fetchEv)

/-- `ImapService.get_emails` with its `finally: connection.logout()`,
for an invocation whose connection was successfully opened. -/
def get_emails_op (env : Env) (conn : Conn) (subject : Option String)
    (mailbox : String) (limit : Nat) :
    Except String (List EmailResponse) × List ImapEvent :=
  tryFinallyLogout (get_emails_body env conn subject mailbox limit) conn.logoutRes

/-- The `try` body of `get_attachment`: select (raising unless `OK`),
message-id search, then `None` on an empty result or the walk of the
first hit. -/
def get_attachment_body (env : Env) (conn : Conn) (fname : String) :
    Except String (Option (Option (List Nat) × String × String)) × List ImapEvent :=
  match conn.selectRes with
  | .error e => (.error e, [.selectEv])
  | .ok _ =>
    match conn.searchRes with
    | .error e => (.error e, [.selectEv, .searchEv])
    | .ok ids =>
      match ids with
      | [] => (.ok none, [.selectEv, .searchEv])
      | first :: rest =>
        (.ok (get_attachment env (first :: rest) conn.fetchMsg fname),
         [.selectEv, .searchEv, .fetchEv first])

/-- `ImapService.get_attachment` with its `finally: connection.logout()`,
for an invocation whose connection was successfully opened. -/
def get_attachment_op (env : Env) (conn : Conn) (fname : String) :
    Except String (Option (Option (List Nat) × String × String)) × List ImapEvent :=
  tryFinallyLogout (get_attachment_body env conn fname) conn.logoutRes

/-- Modelled from the claim's classification wording, for comparison
with `pp_is_attachment`: disposition containing `attachment` or `inline`
first, then a present (truthy) filename, then a main type that is
neither `text` nor `multipart`; only otherwise body capture. -/
def spec_classify_attachment (d : LeafData) : Bool :=
  if strContains (content_disp_of d) "attachment" = true ∨
      strContains (content_disp_of d) "inline" = true then true
  else if optStrTruthy d.filename = true then true
  else if d.maintype ≠ "text" ∧ d.maintype ≠ "multipart" then true
  else false

/-! Concrete fixtures for witnesses and counterexamples. -/

/-- Concrete oracle environment: header decoding is the identity,
UTF-8-with-replacement renders bytes as comma-separated decimals. -/
def envW : Env where
  decode_header := fun s => .ok [.strSeg s]
  decodeCharset := fun _ _ => .ok ""
  decodeUtf8Replace := fun b => String.intercalate "," (b.map toString)
  decodeAsciiReplace := fun _ => ""
  guess_extension := fun _ => some ".bin"
  findall_email := fun _ => []
  parsedate := fun _ => .ok 42
  now := 7

/-- Environment whose `decode_header` always raises. -/
def envBadHeader : Env :=
  { envW with decode_header := fun _ => .error "malformed encoded-word" }

/-- Environment whose `parsedate_to_datetime` always raises. -/
def envBadDate : Env :=
  { envW with parsedate := fun _ => .error () }

/-- A plain `text/plain` leaf with decoded payload `b`. -/
def leafTextPayload (b : List Nat) : LeafData where
  content_type := "text/plain"
  maintype := "text"
  disposition := none
  filename := none
  content_id := none
  payloadDecode := .ok (some b)
  payloadStrEncode := .ok []

/-- A `text/plain` leaf declared `inline` via its disposition, without a
filename. -/
def leafInlineText : LeafData :=
  { leafTextPayload [9] with disposition := some "inline" }

/-- A `text/plain` leaf whose `get_payload(decode=True)` returns `None`
(so `None.decode(...)` raises in the inline walk of `get_emails`). -/
def leafNoneText : LeafData :=
  { leafTextPayload [] with payloadDecode := .ok none }

/-- A PDF attachment leaf with an explicit disposition and filename. -/
def leafPdf : LeafData where
  content_type := "application/pdf"
  maintype := "application"
  disposition := some "attachment; filename=report.pdf"
  filename := some "report.pdf"
  content_id := none
  payloadDecode := .ok (some [1, 2, 3])
  payloadStrEncode := .ok []

/-- An attachment leaf whose payload recovery raises. -/
def leafErrPayload : LeafData :=
  { leafPdf with payloadDecode := .error (), payloadStrEncode := .error () }

/-- The empty `nonlocal` state. -/
def st0 : ContentState := ⟨none, none, []⟩

/-- A simple one-part message for server id `i`. -/
def fetchW : Nat → ServerMessage := fun i =>
  { headers := [], raw := .leaf (leafTextPayload [i]), rawSize := 10 + i,
    strEncodedSize := 20 + i, flags := [] }

/-- A message the server reports as `\Seen`. -/
def msgFlagged : ServerMessage :=
  { fetchW 1 with flags := ["\\Seen"] }

/-- A multipart message with two `text/plain` alternatives. -/
def msgTwoTexts : ServerMessage :=
  { fetchW 1 with
    raw := .multi "multipart/alternative"
      [.leaf (leafTextPayload [1]), .leaf (leafTextPayload [2])] }

/-- A message whose only part is `inline`-disposed text. -/
def msgInline : ServerMessage :=
  { fetchW 1 with raw := .leaf leafInlineText }

/-- A multipart message whose first part fails to decode and whose
second part is fine. -/
def msgBadPart : ServerMessage :=
  { fetchW 1 with
    raw := .multi "multipart/mixed" [.leaf leafNoneText, .leaf (leafTextPayload [2])] }

/-- A message carrying a `Date` header (to be paired with `envBadDate`). -/
def msgBadDate : ServerMessage :=
  { fetchW 1 with headers := [("Date", "garbage")] }

/-- A message with a duplicated header name. -/
def msgDup : ServerMessage :=
  { fetchW 1 with headers := [("X-A", "1"), ("X-B", "2"), ("X-A", "3")] }

/-- A message holding one PDF attachment named `report.pdf`. -/
def msgPdf : ServerMessage :=
  { fetchW 1 with
    raw := .multi "multipart/mixed" [.leaf (leafTextPayload [1]), .leaf leafPdf] }

/-- The `EmailResponse` that `get_emails` produces for `fetchW i`,
extracted by running the embedding. -/
def respOfW (i : Nat) : EmailResponse :=
  match ge_process_message envW "INBOX" none (fetchW i) with
  | .ok (some r) => r
  | _ => { message_id := "", subject := "", sender := "", recipients := [],
           date := 0, mailbox := "", flags := [], text_content := none,
           html_content := none, size := 0, attachments := [], headers := [] }

/-- The `EmailResponse` produced for `msgDup`, by running the embedding. -/
def respDup : EmailResponse :=
  match ge_process_message envW "INBOX" none msgDup with
  | .ok (some r) => r
  | _ => respOfW 0

/-- The first (only) record of a one-message flagged listing. -/
def respFlagged : EmailResponse :=
  match ge_process_message envW "INBOX" none msgFlagged with
  | .ok (some r) => r
  | _ => respOfW 0

/-- A connection whose body operations succeed but whose `logout`
raises. -/
def connLogoutFails : Conn where
  selectRes := .ok ()
  searchRes := .ok []
  fetchMsg := fetchW
  logoutRes := .error "logout failed"

/-! ## Helper lemmas -/

theorem find?_append_eq {α : Type} (p : α → Bool) (l₁ l₂ : List α) :
    (l₁ ++ l₂).find? p =
      (match l₁.find? p with
       | some a => some a
       | none => l₂.find? p) := by
  induction l₁ with
  | nil => simp
  | cons a l ih =>
    by_cases h : p a = true
    · simp [List.find?_cons_of_pos, h]
    · simp only [List.cons_append, List.find?_cons_of_neg _ h, ih]

theorem dictGet_dictInsert (k v k' : String) :
    ∀ d : List (String × String),
      dictGet (dictInsert d k v) k' = if k = k' then some v else dictGet d k' := by
  intro d
  induction d with
  | nil =>
    by_cases h : k = k' <;> simp [dictInsert, dictGet, h]
  | cons kv rest ih =>
    by_cases h1 : kv.1 = k
    · simp only [dictInsert, if_pos h1]
      by_cases h2 : k = k'
      · simp [dictGet, h2]
      · simp [dictGet, h2, h1.symm ▸ h2]
    · simp only [dictInsert, if_neg h1]
      by_cases h2 : kv.1 = k'
      · have hkk : ¬ k = k' := fun hh => h1 (hh ▸ h2)
        simp [dictGet, h2, hkk]
      · simp [dictGet, h2, ih]

theorem build_headers_lookup_go (env : Env) (k : String) :
    ∀ (items d : List (String × String)),
      dictGet (items.foldl
          (fun d kv => dictInsert d kv.1 (decode_header_value env (some kv.2))) d) k
        = (match items.reverse.find? (fun kv => kv.1 == k) with
           | some kv => some (decode_header_value env (some kv.2))
           | none => dictGet d k) := by
  intro items
  induction items with
  | nil => intro d; rfl
  | cons hd tl ih =>
    intro d
    rw [List.foldl_cons, ih, List.reverse_cons, find?_append_eq]
    cases hfind : tl.reverse.find? (fun kv => kv.1 == k) with
    | some kv => rfl
    | none =>
      simp only []
      by_cases h : hd.1 = k
      · rw [List.find?_cons_of_pos _ (by simpa using h)]
        rw [dictGet_dictInsert]
        simp [h]
      · rw [List.find?_cons_of_neg _ (by simpa using h)]
        rw [dictGet_dictInsert]
        simp [h, fun hh : k = hd.1 => h hh.symm]

/-- The lookup behaviour of the dict comprehension at line 211: the value
found for `k` is the decoded value of the last item carrying `k`. -/
theorem build_headers_lookup (env : Env) (items : List (String × String)) (k : String) :
    dictGet (build_headers env items) k
      = (match items.reverse.find? (fun kv => kv.1 == k) with
         | some kv => some (decode_header_value env (some kv.2))
         | none => none) := by
  rw [build_headers, build_headers_lookup_go]
  cases items.reverse.find? (fun kv => kv.1 == k) <;> rfl

/-- Any successfully produced response of `get_emails` has the shape
built by `ge_build_response`: in particular empty `flags` and the
decoded-header dict. -/
theorem ge_process_message_shape (env : Env) (mailbox : String) (subject : Option String)
    (m : ServerMessage) (r : EmailResponse)
    (h : ge_process_message env mailbox subject m = .ok (some r)) :
    r.flags = [] ∧ r.headers = build_headers env m.headers := by
  unfold ge_process_message at h
  split at h
  · exact absurd h (by simp)
  · split at h
    · exact absurd h (by simp)
    · split at h
      · split at h
        · exact absurd h (by simp)
        · simp only [Except.ok.injEq, Option.some.injEq] at h
          subst h
          exact ⟨rfl, rfl⟩
      · simp only [Except.ok.injEq, Option.some.injEq] at h
        subst h
        exact ⟨rfl, rfl⟩

/-! ## Claims -/

/-- C6: for every input, the Header Decoder returns a string and never
raises (it is a total function of the oracle environment); an absent
(`None` or empty) value returns the empty string, and when the
underlying `decode_header` library call raises, the original raw value
is returned unchanged. -/
theorem claim6_thm (env : Env) (v e : String)
    (he : env.decode_header v = .error e) (hv : v ≠ "") :
    decode_header_value env none = "" ∧
    decode_header_value env (some "") = "" ∧
    decode_header_value env (some v) = v := by
  refine ⟨rfl, rfl, ?_⟩
  simp only [decode_header_value, if_neg hv, he]

theorem claim6_witness :
    decode_header_value envBadHeader none = "" ∧
    decode_header_value envBadHeader (some "") = "" ∧
    decode_header_value envBadHeader (some "=?utf-8?Q?broken") = "=?utf-8?Q?broken" :=
  claim6_thm envBadHeader "=?utf-8?Q?broken" "malformed encoded-word" rfl (by decide)

/-- C10: for every produced Message, looking a name up in its headers
mapping yields the decoded value of the last occurrence of that name in
the raw header list (last-one-wins), every stored value having passed
through the Header Decoder. -/
theorem claim10_thm (env : Env) (mailbox : String) (subject : Option String)
    (m : ServerMessage) (r : EmailResponse)
    (h : ge_process_message env mailbox subject m = .ok (some r)) (k : String) :
    dictGet r.headers k
      = (match m.headers.reverse.find? (fun kv => kv.1 == k) with
         | some kv => some (decode_header_value env (some kv.2))
         | none => none) := by
  rw [(ge_process_message_shape env mailbox subject m r h).2, build_headers_lookup]

theorem claim10_witness : dictGet respDup.headers "X-A" = some "3" := by
  rw [claim10_thm envW "INBOX" none msgDup respDup (by decide) "X-A"]
  decide

theorem ge_fetch_loop_flags (env : Env) (mailbox : String) (subject : Option String)
    (limit : Nat) :
    ∀ (msgs : List ServerMessage) (acc : List EmailResponse),
      (∀ a ∈ acc, a.flags = ([] : List String)) →
      ∀ r ∈ ge_fetch_loop env mailbox subject limit msgs acc, r.flags = [] := by
  intro msgs
  induction msgs with
  | nil =>
    intro acc hacc r hr
    exact hacc r (by simpa [ge_fetch_loop] using hr)
  | cons m rest ih =>
    intro acc hacc r hr
    unfold ge_fetch_loop at hr
    cases hm : ge_process_message env mailbox subject m with
    | error e => rw [hm] at hr; exact ih acc hacc r hr
    | ok o =>
      cases o with
      | none => rw [hm] at hr; exact ih acc hacc r hr
      | some r' =>
        rw [hm] at hr
        dsimp only at hr
        have hacc' : ∀ a ∈ acc ++ [r'], a.flags = ([] : List String) := by
          intro a ha
          rcases List.mem_append.mp ha with h1 | h2
          · exact hacc a h1
          · rw [List.mem_singleton.mp h2]
            exact (ge_process_message_shape env mailbox subject m r' hm).1
        by_cases hbr : limit ≤ (acc ++ [r']).length
        · rw [if_pos hbr] at hr; exact hacc' r hr
        · rw [if_neg hbr] at hr; exact ih (acc ++ [r']) hacc' r hr

/-- C8 (amended): every Message produced by the list operation has an
empty `flags` field — the server-reported flags from the fetch response
are only logged, never copied into the result. -/
theorem claim8_thm (env : Env) (fetchMsg : Nat → ServerMessage) (searchIds : List Nat)
    (subject : Option String) (mailbox : String) (limit : Nat) :
    ∀ r ∈ get_emails env fetchMsg searchIds subject mailbox limit, r.flags = [] := by
  intro r hr
  exact ge_fetch_loop_flags env mailbox subject limit _ [] (by simp) r hr

/-- C8 (counterexample): for a message the server reports as `\Seen`,
the produced Message's flags field is empty, not the server-reported
set. -/
theorem claim8_counterexample :
    (get_emails envW (fun _ => msgFlagged) [1] none "INBOX" 1).map (fun r => r.flags)
      = [[]] ∧
    msgFlagged.flags = ["\\Seen"] := by
  exact ⟨by decide, rfl⟩

theorem claim8_witness : respFlagged.flags = [] :=
  claim8_thm envW (fun _ => msgFlagged) [1] none "INBOX" 1 respFlagged (by decide)

theorem ge_fetch_loop_all_ok (env : Env) (fetchMsg : Nat → ServerMessage)
    (mailbox : String) (limit : Nat) (respOf : Nat → EmailResponse) :
    ∀ (ids : List Nat) (acc : List EmailResponse),
      (∀ i ∈ ids, ge_process_message env mailbox none (fetchMsg i) = .ok (some (respOf i))) →
      acc.length + ids.length ≤ limit →
      ge_fetch_loop env mailbox none limit (ids.map fetchMsg) acc = acc ++ ids.map respOf := by
  intro ids
  induction ids with
  | nil => intro acc _ _; simp [ge_fetch_loop]
  | cons i rest ih =>
    intro acc hok hlen
    have hi := hok i (by simp)
    simp only [List.map_cons]
    unfold ge_fetch_loop
    rw [hi]
    dsimp only
    by_cases hbr : limit ≤ (acc ++ [respOf i]).length
    · rw [if_pos hbr]
      have hrl : rest.length = 0 := by
        simp only [List.length_cons] at hlen
        simp only [List.length_append, List.length_cons, List.length_nil] at hbr
        omega
      have hrest : rest = [] := List.length_eq_zero.mp hrl
      subst hrest
      simp
    · rw [if_neg hbr]
      have hlen' : (acc ++ [respOf i]).length + rest.length ≤ limit := by
        simp only [List.length_append, List.length_cons, List.length_nil] at hlen ⊢
        omega
      rw [ih (acc ++ [respOf i]) (fun j hj => hok j (by simp [hj])) hlen']
      simp

/-- C3: for every list operation, the identifiers returned by the server
search are reversed (newest first) and capped to at most `limit` before
any fetch: when every fetched message parses successfully, the result is
exactly the responses of `searchIds.reverse.take limit` in that order,
and the result never exceeds `limit` records.  Instantiated at a
5-message mailbox with `limit = 2` this gives exactly 2 records, newest
first (see the witness). -/
theorem claim3_thm (env : Env) (fetchMsg : Nat → ServerMessage) (mailbox : String)
    (searchIds : List Nat) (limit : Nat) (respOf : Nat → EmailResponse)
    (h : ∀ i ∈ searchIds,
      ge_process_message env mailbox none (fetchMsg i) = .ok (some (respOf i))) :
    get_emails env fetchMsg searchIds none mailbox limit
      = (searchIds.reverse.take limit).map respOf ∧
    (get_emails env fetchMsg searchIds none mailbox limit).length ≤ limit := by
  have hmain : get_emails env fetchMsg searchIds none mailbox limit
      = (searchIds.reverse.take limit).map respOf := by
    unfold get_emails
    rw [ge_fetch_loop_all_ok env fetchMsg mailbox limit respOf (searchIds.reverse.take limit) []
        (fun i hi => h i (List.mem_reverse.mp (List.mem_of_mem_take hi)))
        (by simp [List.length_take_le])]
    simp
  refine ⟨hmain, ?_⟩
  rw [hmain]
  simp [List.length_take_le]

/-- C3 witness: 5-message mailbox, `limit = 2`, no filters: exactly the
two newest messages (server ids 5 then 4), in that order. -/
theorem claim3_witness :
    get_emails envW fetchW [1, 2, 3, 4, 5] none "INBOX" 2 = [respOfW 5, respOfW 4] ∧
    (get_emails envW fetchW [1, 2, 3, 4, 5] none "INBOX" 2).length ≤ 2 := by
  have h := claim3_thm envW fetchW "INBOX" [1, 2, 3, 4, 5] 2 respOfW (by decide)
  exact ⟨h.1, h.2⟩

theorem count_logout_map_fetch (l : List Nat) :
    (l.map ImapEvent.fetchEv).count ImapEvent.logoutEv = 0 := by
  rw [List.count_eq_zero]
  intro h
  rcases List.mem_map.mp h with ⟨n, _, hn⟩
  exact absurd hn (by simp)

theorem get_emails_body_no_logout (env : Env) (conn : Conn) (subject : Option String)
    (mailbox : String) (limit : Nat) :
    (get_emails_body env conn subject mailbox limit).2.count ImapEvent.logoutEv = 0 := by
  unfold get_emails_body
  cases conn.selectRes with
  | error e => dsimp only; decide
  | ok u =>
    cases conn.searchRes with
    | error e => dsimp only; decide
    | ok ids =>
      dsimp only
      rw [List.count_append, count_logout_map_fetch]
      decide

theorem get_attachment_body_no_logout (env : Env) (conn : Conn) (fname : String) :
    (get_attachment_body env conn fname).2.count ImapEvent.logoutEv = 0 := by
  unfold get_attachment_body
  cases conn.selectRes with
  | error e => dsimp only; decide
  | ok u =>
    cases conn.searchRes with
    | error e => dsimp only; decide
    | ok ids =>
      cases ids with
      | nil => dsimp only; decide
      | cons first rest =>
        dsimp only
        rw [List.count_eq_zero]
        intro h
        simp at h

/-- C4 (amended): for every invocation of the list or attachment-fetch
operation in which a session was opened, logout is attempted exactly
once, whether the operation body succeeds or raises; but an error raised
during logout is NOT swallowed: it propagates to the caller as the
operation's outcome. -/
theorem claim4_thm (env : Env) (conn : Conn) (subject : Option String)
    (mailbox : String) (limit : Nat) (fname : String) (e : String) :
    (get_emails_op env conn subject mailbox limit).2.count ImapEvent.logoutEv = 1 ∧
    (get_attachment_op env conn fname).2.count ImapEvent.logoutEv = 1 ∧
    (conn.logoutRes = .error e →
      (get_emails_op env conn subject mailbox limit).1 = .error e ∧
      (get_attachment_op env conn fname).1 = .error e) := by
  refine ⟨?_, ?_, ?_⟩
  · show (tryFinallyLogout _ _).2.count _ = 1
    unfold tryFinallyLogout
    rw [List.count_append, get_emails_body_no_logout]
    decide
  · show (tryFinallyLogout _ _).2.count _ = 1
    unfold tryFinallyLogout
    rw [List.count_append, get_attachment_body_no_logout]
    decide
  · intro he
    constructor
    · show (tryFinallyLogout _ _).1 = _
      unfold tryFinallyLogout
      rw [he]
    · show (tryFinallyLogout _ _).1 = _
      unfold tryFinallyLogout
      rw [he]

/-- C4 (counterexample): a list operation whose body succeeds (with the
value `.ok []`) but whose logout raises returns the logout error to the
caller — the close error is propagated and replaces the
already-determined result. -/
theorem claim4_counterexample :
    (get_emails_body envW connLogoutFails none "INBOX" 0).1 = .ok [] ∧
    (get_emails_op envW connLogoutFails none "INBOX" 0).1 = .error "logout failed" :=
  ⟨rfl, rfl⟩

theorem claim4_witness :
    (get_emails_op envW connLogoutFails none "INBOX" 1).2.count ImapEvent.logoutEv = 1 ∧
    (get_attachment_op envW connLogoutFails "f").1 = .error "logout failed" := by
  have h := claim4_thm envW connLogoutFails none "INBOX" 1 "f" "logout failed"
  exact ⟨h.1, (h.2.2 rfl).2⟩

/-- C7 (amended): in `parse_email_message` a present-but-unparseable
`Date` header is caught and the Message's timestamp falls back to the
current time, the message still being produced; in `get_emails` the
same failure instead aborts that message (see the counterexample). -/
theorem claim7_thm (env : Env) (m : ServerMessage) (mailbox : String)
    (flags : List String) (ds : String)
    (h1 : msgGet m.headers "date" = some ds) (h2 : env.parsedate ds = .error ()) :
    (parse_email_message env m mailbox flags).date = env.now := by
  simp only [parse_email_message, h1, h2]

/-- C7 (counterexample): in the list operation, a message whose `Date`
header is present but unparseable is omitted from the result entirely
(the per-message handler catches the raise from
`parsedate_to_datetime`), rather than being produced with the current
time. -/
theorem claim7_counterexample :
    msgGet msgBadDate.headers "date" = some "garbage" ∧
    envBadDate.parsedate "garbage" = .error () ∧
    get_emails envBadDate (fun _ => msgBadDate) [1] none "INBOX" 1 = [] :=
  ⟨by decide, rfl, by decide⟩

theorem claim7_witness :
    (parse_email_message envBadDate msgBadDate "INBOX" []).date = envBadDate.now :=
  claim7_thm envBadDate msgBadDate "INBOX" [] "garbage" (by decide) rfl

theorem ga_walk_none_of_no_match (env : Env) (fname : String) :
    ∀ ds : List LeafData,
      (∀ d ∈ ds, optStrTruthy d.filename = true →
        decode_header_value env d.filename ≠ fname) →
      ga_walk env fname ds = none := by
  intro ds
  induction ds with
  | nil => intro _; rfl
  | cons d rest ih =>
    intro h
    unfold ga_walk
    by_cases h1 : optStrTruthy d.filename = true
    · rw [if_pos h1, if_neg (h d (by simp) h1)]
      exact ih fun d' hd' => h d' (by simp [hd'])
    · rw [if_neg h1]
      exact ih fun d' hd' => h d' (by simp [hd'])

theorem ga_walk_some_inv (env : Env) (fname : String) :
    ∀ (ds : List LeafData) (t : Option (List Nat) × String × String),
      ga_walk env fname ds = some t →
      t.2.1 = fname ∧ ∃ d ∈ ds, optStrTruthy d.filename = true ∧
        decode_header_value env d.filename = fname := by
  intro ds
  induction ds with
  | nil => intro t ht; exact absurd ht (by simp [ga_walk])
  | cons d rest ih =>
    intro t ht
    unfold ga_walk at ht
    by_cases h1 : optStrTruthy d.filename = true
    · rw [if_pos h1] at ht
      by_cases h2 : decode_header_value env d.filename = fname
      · rw [if_pos h2] at ht
        cases hp : d.payloadDecode with
        | ok p =>
          rw [hp] at ht
          have ht' : (p, decode_header_value env d.filename, d.content_type) = t :=
            Option.some.inj ht
          subst ht'
          exact ⟨h2, d, by simp, h1, h2⟩
        | error e =>
          rw [hp] at ht
          rcases ih t ht with ⟨ha, d', hd', hb, hc⟩
          exact ⟨ha, d', by simp [hd'], hb, hc⟩
      · rw [if_neg h2] at ht
        rcases ih t ht with ⟨ha, d', hd', hb, hc⟩
        exact ⟨ha, d', by simp [hd'], hb, hc⟩
    · rw [if_neg h1] at ht
      rcases ih t ht with ⟨ha, d', hd', hb, hc⟩
      exact ⟨ha, d', by simp [hd'], hb, hc⟩

/-- C5: the attachment-fetch operation returns `none` (not an error)
both when the message-identifier search returns zero results and when no
leaf part's decoded filename equals the requested filename exactly; and
it returns a non-`none` value only when some leaf of the first hit has a
truthy filename that decodes exactly to the request (the returned
filename being that decoded match). -/
theorem claim5_thm (env : Env) (fetchMsg : Nat → ServerMessage) (fname : String) :
    get_attachment env [] fetchMsg fname = none ∧
    (∀ first rest,
      (∀ d ∈ walkLeaves (fetchMsg first).raw, optStrTruthy d.filename = true →
        decode_header_value env d.filename ≠ fname) →
      get_attachment env (first :: rest) fetchMsg fname = none) ∧
    (∀ ids t, get_attachment env ids fetchMsg fname = some t →
      t.2.1 = fname ∧ ∃ first rest, ids = first :: rest ∧
        ∃ d ∈ walkLeaves (fetchMsg first).raw,
          optStrTruthy d.filename = true ∧ decode_header_value env d.filename = fname) := by
  refine ⟨rfl, ?_, ?_⟩
  · intro first rest h
    exact ga_walk_none_of_no_match env fname _ h
  · intro ids t ht
    cases ids with
    | nil => exact absurd ht (by simp [get_attachment])
    | cons first rest =>
      rcases ga_walk_some_inv env fname _ t ht with ⟨ha, d, hd, hb, hc⟩
      exact ⟨ha, first, rest, rfl, d, hd, hb, hc⟩

theorem claim5_witness :
    get_attachment envW [] (fun _ => msgPdf) "nope.pdf" = none ∧
    get_attachment envW [1] (fun _ => msgPdf) "nope.pdf" = none := by
  have h := claim5_thm envW (fun _ => msgPdf) "nope.pdf"
  exact ⟨h.1, h.2.1 1 [] (by decide)⟩

theorem pp_classification_eq_spec (d : LeafData) :
    pp_is_attachment d = spec_classify_attachment d := by
  unfold pp_is_attachment spec_classify_attachment
  by_cases h : content_disp_of d = ""
  · rw [h]
    have h1 : strContains "" "attachment" = false := by decide
    have h2 : strContains "" "inline" = false := by decide
    simp [h1, h2]
  · simp [h]

theorem pp_leaf_attachment_keeps_bodies (env : Env) (d : LeafData) (st : ContentState)
    (h : pp_is_attachment d = true) :
    (pp_leaf env d st).text_content = st.text_content ∧
    (pp_leaf env d st).html_content = st.html_content := by
  unfold pp_leaf
  rw [if_pos h]
  cases ppExtractPayload d <;> exact ⟨rfl, rfl⟩

theorem pp_leaf_body_keeps_attachments (env : Env) (d : LeafData) (st : ContentState)
    (h : pp_is_attachment d = false) :
    (pp_leaf env d st).attachments = st.attachments := by
  unfold pp_leaf
  rw [if_neg (by simp [h])]
  split
  · cases d.payloadDecode with
    | ok o =>
      cases o with
      | some b => dsimp only; split <;> rfl
      | none => rfl
    | error e => rfl
  · split
    · cases d.payloadDecode with
      | ok o =>
        cases o with
        | some b => dsimp only; split <;> rfl
        | none => rfl
      | error e => rfl
    · rfl

theorem pp_leaf_pres_text (env : Env) (d : LeafData) (st : ContentState)
    (h : optStrTruthy st.text_content = true) :
    (pp_leaf env d st).text_content = st.text_content := by
  unfold pp_leaf
  split
  · cases ppExtractPayload d <;> rfl
  · split
    · rename_i hc
      rw [hc.2] at h
      cases h
    · split
      · cases d.payloadDecode with
        | ok o =>
          cases o with
          | some b => dsimp only; split <;> rfl
          | none => rfl
        | error e => rfl
      · rfl

theorem pp_leaf_pres_html (env : Env) (d : LeafData) (st : ContentState)
    (h : optStrTruthy st.html_content = true) :
    (pp_leaf env d st).html_content = st.html_content := by
  unfold pp_leaf
  split
  · cases ppExtractPayload d <;> rfl
  · split
    · cases d.payloadDecode with
      | ok o =>
        cases o with
        | some b => dsimp only; split <;> rfl
        | none => rfl
      | error e => rfl
    · split
      · rename_i hc
        rw [hc.2] at h
        cases h
      · rfl

mutual

theorem process_part_preserves (env : Env) (p : MimePart) (st : ContentState) :
    (optStrTruthy st.text_content = true →
      (process_part env p st).text_content = st.text_content) ∧
    (optStrTruthy st.html_content = true →
      (process_part env p st).html_content = st.html_content) :=
  match p with
  | .leaf d =>
    ⟨fun h => pp_leaf_pres_text env d st h, fun h => pp_leaf_pres_html env d st h⟩
  | .multi _ cs => pp_children_preserves env cs st

theorem pp_children_preserves (env : Env) (cs : List MimePart) (st : ContentState) :
    (optStrTruthy st.text_content = true →
      (pp_children env cs st).text_content = st.text_content) ∧
    (optStrTruthy st.html_content = true →
      (pp_children env cs st).html_content = st.html_content) :=
  match cs with
  | [] => ⟨fun _ => rfl, fun _ => rfl⟩
  | c :: rest => by
    constructor
    · intro h
      have h1 := (process_part_preserves env c st).1 h
      have h2 := (pp_children_preserves env rest (process_part env c st)).1
        (by rw [h1]; exact h)
      show (pp_children env rest (process_part env c st)).text_content = st.text_content
      rw [h2, h1]
    · intro h
      have h1 := (process_part_preserves env c st).2 h
      have h2 := (pp_children_preserves env rest (process_part env c st)).2
        (by rw [h1]; exact h)
      show (pp_children env rest (process_part env c st)).html_content = st.html_content
      rw [h2, h1]

end

/-- C1 (amended): the MIME Walker (`get_content_parts.process_part`)
classifies exactly by the claimed priority — its attachment test equals
the spec-side classifier; an attachment-classified leaf never touches
the body slots, and a non-attachment leaf never appends an attachment
record (only then is it considered for body capture).  The inline walk
of `get_emails` uses a different heuristic (see the counterexample). -/
theorem claim1_thm (env : Env) (d : LeafData) (st : ContentState) :
    pp_is_attachment d = spec_classify_attachment d ∧
    (pp_is_attachment d = true →
      (pp_leaf env d st).text_content = st.text_content ∧
      (pp_leaf env d st).html_content = st.html_content) ∧
    (pp_is_attachment d = false →
      (pp_leaf env d st).attachments = st.attachments) :=
  ⟨pp_classification_eq_spec d,
   fun h => pp_leaf_attachment_keeps_bodies env d st h,
   fun h => pp_leaf_body_keeps_attachments env d st h⟩

/-- C1 (counterexample): in the inline walk of `get_emails`, a leaf
whose declared disposition contains `inline` (no filename, `text` main
type) is NOT classified as an attachment — it is captured as body text,
contradicting the claimed priority for that walk. -/
theorem claim1_counterexample :
    strContains (content_disp_of leafInlineText) "inline" = true ∧
    ge_is_attachment leafInlineText = false ∧
    ge_process_leaf envW st0 leafInlineText = .ok ⟨some "9", none, []⟩ ∧
    (get_emails envW (fun _ => msgInline) [1] none "INBOX" 1).map
      (fun r => (r.text_content, r.attachments)) = [(some "9", [])] :=
  ⟨by decide, by decide, by decide, by decide⟩

theorem claim1_witness :
    pp_is_attachment leafPdf = spec_classify_attachment leafPdf ∧
    (pp_leaf envW leafPdf st0).text_content = st0.text_content := by
  have h := claim1_thm envW leafPdf st0
  exact ⟨h.1, (h.2.1 (by decide)).1⟩

/-- C2 (amended): in the MIME Walker (`get_content_parts`), once the
text (resp. HTML) body holds a truthy value no later part overwrites it
— first capture wins and content is never concatenated; in the inline
walk of `get_emails` there is no such guard: a later `text/plain` part
unconditionally overwrites the body slot, so the last part wins there
(see the counterexample). -/
theorem claim2_thm (env : Env) (p : MimePart) (st : ContentState)
    (d : LeafData) (b : List Nat) :
    (optStrTruthy st.text_content = true →
      (process_part env p st).text_content = st.text_content) ∧
    (optStrTruthy st.html_content = true →
      (process_part env p st).html_content = st.html_content) ∧
    (ge_is_attachment d = false → d.content_type = "text/plain" →
      d.payloadDecode = .ok (some b) →
      ge_process_leaf env st d
        = .ok { st with text_content := some (env.decodeUtf8Replace b) }) := by
  refine ⟨(process_part_preserves env p st).1, (process_part_preserves env p st).2, ?_⟩
  intro h1 h2 h3
  unfold ge_process_leaf
  rw [if_neg (by simp [h1]), if_pos h2, h3]

/-- C2 (counterexample): for a message with two `text/plain` parts
(payloads decoding to `"1"` and `"2"`), the list operation's walk
populates the text body with the SECOND part's content, not the first —
while `get_content_parts` on the same tree keeps the first. -/
theorem claim2_counterexample :
    msgTwoTexts.raw = .multi "multipart/alternative"
      [.leaf (leafTextPayload [1]), .leaf (leafTextPayload [2])] ∧
    (get_emails envW (fun _ => msgTwoTexts) [1] none "INBOX" 1).map
      (fun r => r.text_content) = [some "2"] ∧
    get_content_parts envW msgTwoTexts.raw = (some "1", none, []) ∧
    envW.decodeUtf8Replace [1] = "1" ∧ envW.decodeUtf8Replace [2] = "2" :=
  ⟨rfl, by decide, by decide, by decide, by decide⟩

theorem claim2_witness :
    (process_part envW (.leaf (leafTextPayload [2])) ⟨some "1", none, []⟩).text_content
      = some "1" ∧
    ge_process_leaf envW ⟨some "1", none, []⟩ (leafTextPayload [2])
      = .ok ⟨some "2", none, []⟩ := by
  have h := claim2_thm envW (.leaf (leafTextPayload [2])) ⟨some "1", none, []⟩
    (leafTextPayload [2]) [2]
  refine ⟨h.1 (by decide), ?_⟩
  rw [h.2.2 (by decide) rfl rfl]
  decide

/-- C9 (amended): in `get_content_parts` and in `get_attachment`'s walk
a per-part failure is caught and only that part is skipped — the state
is unchanged and sibling/subsequent parts are still processed; the
inline walk of `get_emails` has no per-part handler, so a part failure
aborts the whole message (see the counterexample). -/
theorem claim9_thm (env : Env) (d : LeafData) (st : ContentState)
    (c : MimePart) (cs : List MimePart) (rest : List LeafData) (fname : String) :
    (pp_is_attachment d = true → ppExtractPayload d = .error () →
      pp_leaf env d st = st) ∧
    (pp_is_attachment d = false → d.payloadDecode = .error () →
      pp_leaf env d st = st) ∧
    (process_part env c st = st →
      pp_children env (c :: cs) st = pp_children env cs st) ∧
    (optStrTruthy d.filename = true → decode_header_value env d.filename = fname →
      d.payloadDecode = .error () →
      ga_walk env fname (d :: rest) = ga_walk env fname rest) := by
  refine ⟨?_, ?_, ?_, ?_⟩
  · intro h1 h2
    unfold pp_leaf
    rw [if_pos h1, h2]
  · intro h1 h2
    unfold pp_leaf
    rw [if_neg (by simp [h1])]
    split
    · rw [h2]
    · split
      · rw [h2]
      · rfl
  · intro h
    show pp_children env cs (process_part env c st) = pp_children env cs st
    rw [h]
  · intro h1 h2 h3
    simp only [ga_walk]
    rw [if_pos h1, if_pos h2, h3]

/-- C9 (counterexample): a two-part message whose first part fails to
decode (payload `None`, so `None.decode` raises) is dropped wholly by
the list operation — the second, healthy part is not returned either —
while `get_content_parts` on the same tree recovers the second part. -/
theorem claim9_counterexample :
    msgBadPart.raw = .multi "multipart/mixed"
      [.leaf leafNoneText, .leaf (leafTextPayload [2])] ∧
    get_emails envW (fun _ => msgBadPart) [1] none "INBOX" 1 = [] ∧
    ge_process_message envW "INBOX" none msgBadPart = .error () ∧
    get_content_parts envW msgBadPart.raw = (some "2", none, []) :=
  ⟨rfl, by decide, by decide, by decide⟩

theorem claim9_witness :
    pp_leaf envW leafErrPayload st0 = st0 ∧
    ga_walk envW "report.pdf" [leafErrPayload, leafPdf]
      = ga_walk envW "report.pdf" [leafPdf] := by
  have h := claim9_thm envW leafErrPayload st0 (.leaf leafErrPayload) [] [leafPdf]
    "report.pdf"
  exact ⟨h.1 (by decide) (by decide), h.2.2.2 (by decide) (by decide) rfl⟩

end ImapApi
